import Mathlib

/-!
# Verification of the `opticalc` ophthalmic-lens optics library

Shallow embedding over `ℝ` of the pure floating-point functions
(`src/lib.rs`, `src/crossed_cylinders.rs`, `src/prism.rs`, `src/transpose.rs`,
`src/convert_power.rs`), together with proofs and refutations of the
spec claims about them.  Floating-point arithmetic is idealized as real arithmetic;
`f64::atan2` is modelled by `Complex.arg`, and the truncating Rust `%` by an explicit
truncated remainder.
-/

namespace Opticalc

noncomputable section

open Real

/-- Model of `f64::to_radians`: degrees to radians. -/
def toRadians (x : ℝ) : ℝ := x * (π / 180)

/-- Model of `f64::to_degrees`: radians to degrees. -/
def toDegrees (x : ℝ) : ℝ := x * (180 / π)

/-- Model of `f64::trunc`: rounding toward zero. -/
def rtrunc (r : ℝ) : ℝ := if 0 ≤ r then (⌊r⌋ : ℝ) else (⌈r⌉ : ℝ)

/-- The Rust `%` operator on `f64`: truncated remainder, `x - y * (x / y).trunc()`. -/
def fmod (x y : ℝ) : ℝ := x - y * rtrunc (x / y)

/-- Model of `f64::atan2(y, x)`: the angle of the point `(x, y)` in `(-π, π]`, with
`atan2(0, 0) = 0`; this is exactly `Complex.arg ⟨x, y⟩`. -/
def atan2 (y x : ℝ) : ℝ := Complex.arg ⟨x, y⟩

/-- The `Eye` enum (`src/lib.rs`): right eye `OD`, left eye `OS`. -/
inductive Eye where
  | OD : Eye
  | OS : Eye
deriving DecidableEq

/-- The `SpheroCyl` struct (`src/lib.rs`): sphere (D), cylinder (D), axis (deg). -/
@[ext]
structure SpheroCyl where
  sphere : ℝ
  cylinder : ℝ
  axis_deg : ℝ

/-- Model of `SpheroCyl::power_at` (`src/lib.rs`): meridional power at meridian φ (deg),
`sphere + cylinder * sin((phi_deg - axis_deg).to_radians())^2`. -/
def SpheroCyl.power_at (self : SpheroCyl) (phi_deg : ℝ) : ℝ :=
  self.sphere + self.cylinder * Real.sin (toRadians (phi_deg - self.axis_deg)) ^ 2

/-- Model of `SpheroCyl::transpose` (`src/transpose.rs`): sphere += cylinder, cylinder
negated, axis shifted by −90 when `axis_deg ≥ 90` and by +90 otherwise. -/
def SpheroCyl.transpose (self : SpheroCyl) : SpheroCyl :=
  { sphere := self.sphere + self.cylinder
    cylinder := -self.cylinder
    axis_deg := if 90 ≤ self.axis_deg then self.axis_deg - 90 else self.axis_deg + 90 }

/-- The symmetric 2×2 power matrix `[[px, pt], [pt, py]]` of a lens. -/
@[ext]
structure PowerMatrix where
  px : ℝ
  pt : ℝ
  py : ℝ

/-- The power-matrix components computed (identically) at the top of
`crossed_cylinders` (`src/crossed_cylinders.rs` lines 8–16) and of
`induced_prism` (`src/prism.rs` lines 178–187):
`px = s + c·sin(a)·sin(a)`, `pt = −c·sin(a)·cos(a)`, `py = s + c·cos(a)·cos(a)`
with `a = axis_deg.to_radians()`. -/
def SpheroCyl.toMatrix (self : SpheroCyl) : PowerMatrix :=
  { px := self.sphere + self.cylinder * Real.sin (toRadians self.axis_deg) *
      Real.sin (toRadians self.axis_deg)
    pt := -self.cylinder * Real.sin (toRadians self.axis_deg) *
      Real.cos (toRadians self.axis_deg)
    py := self.sphere + self.cylinder * Real.cos (toRadians self.axis_deg) *
      Real.cos (toRadians self.axis_deg) }

/-- Axis normalization at the end of `crossed_cylinders`
(`src/crossed_cylinders.rs` lines 46–49): `axis_deg % 180.0`, then `+ 180.0`
if negative. -/
def norm180 (w : ℝ) : ℝ :=
  if fmod w 180 < 0 then fmod w 180 + 180 else fmod w 180

/-- The `delta` of the matrix decomposition (`src/crossed_cylinders.rs` lines
34–38): `sqrt(max(trace² − 4·determinant, 0))`. -/
def fmDelta (px pt py : ℝ) : ℝ :=
  Real.sqrt (max ((px + py) * (px + py) - 4 * (px * py - pt * pt)) 0)

/-- The `sphere` of the matrix decomposition (`src/crossed_cylinders.rs` lines
39–40): `cylinder = −delta`, `sphere = (trace − cylinder) / 2`. -/
def fmSphere (px pt py : ℝ) : ℝ :=
  ((px + py) - -fmDelta px pt py) / 2

/-- Axis of the matrix decomposition (`src/crossed_cylinders.rs` lines 42–49):
`atan2(sphere − px, pt)`, converted to degrees and normalized into [0, 180). -/
def fmAxis (px pt py : ℝ) : ℝ :=
  norm180 (toDegrees (atan2 (fmSphere px pt py - px) pt))

/-- Decomposition of a power matrix into a `SpheroCyl`, exactly the second half
of `crossed_cylinders` (`src/crossed_cylinders.rs` lines 33–55). -/
def fromMatrix (px pt py : ℝ) : SpheroCyl :=
  { sphere := fmSphere px pt py
    cylinder := -fmDelta px pt py
    axis_deg := fmAxis px pt py }

/-- Model of `crossed_cylinders` (`src/crossed_cylinders.rs` lines 7–56): sum the two
power matrices componentwise and decompose the sum.  The source inlines the
matrix construction and decomposition; `toMatrix` and `fromMatrix` above are
verbatim transcriptions of those inlined steps. -/
def crossed_cylinders (lens1 lens2 : SpheroCyl) : SpheroCyl :=
  fromMatrix (lens1.toMatrix.px + lens2.toMatrix.px)
    (lens1.toMatrix.pt + lens2.toMatrix.pt)
    (lens1.toMatrix.py + lens2.toMatrix.py)

/-- The `HorizontalBase` enum (`src/lib.rs`): Base In / Base Out. -/
inductive HorizontalBase where
  | In : HorizontalBase
  | Out : HorizontalBase
deriving DecidableEq

/-- The `VerticalBase` enum (`src/lib.rs`): Base Up / Base Down. -/
inductive VerticalBase where
  | Up : VerticalBase
  | Down : VerticalBase
deriving DecidableEq

/-- The `HorizontalPrism` struct (`src/lib.rs`): a stored magnitude (Δ) and a
stored base direction. -/
structure HorizontalPrism where
  amount : ℝ
  base : HorizontalBase

/-- The constant `f64::EPSILON` = 2⁻⁵², the machine epsilon used by
`HorizontalPrism::is_none`. -/
def f64Epsilon : ℝ := 2 ^ (-52 : ℤ)

/-- Model of `HorizontalPrism::is_none` (`src/lib.rs` lines 151–154):
`amount == 0.0 || (amount - 0.0).abs() < f64::EPSILON`. -/
def HorizontalPrism.is_none (self : HorizontalPrism) : Prop :=
  self.amount = 0 ∨ |self.amount - 0| < f64Epsilon

open Classical in
/-- Model of `HorizontalPrism::base` (`src/lib.rs` lines 165–171): `None` when
`is_none()`, otherwise the stored base. -/
def HorizontalPrism.base? (self : HorizontalPrism) : Option HorizontalBase :=
  if self.is_none then none else some self.base

/-- The `VerticalPrism` struct (`src/lib.rs`). -/
structure VerticalPrism where
  amount : ℝ
  base : VerticalBase

/-- Model of `VerticalPrism::is_none` (`src/lib.rs` lines 286–288): exact-zero test
`amount == 0.0`. -/
def VerticalPrism.is_none (self : VerticalPrism) : Prop :=
  self.amount = 0

open Classical in
/-- Model of `VerticalPrism::base` (`src/lib.rs` lines 299–305). -/
def VerticalPrism.base? (self : VerticalPrism) : Option VerticalBase :=
  if self.is_none then none else some self.base

/-- The `Decentration` struct (`src/lib.rs`): vertical (+up) and horizontal
(+nasal) decentration in mm. -/
structure Decentration where
  vertical_mm : ℝ
  horizontal_mm : ℝ

/-- The `InducedPrism` struct (`src/prism.rs`): raw signed prism components. -/
structure InducedPrism where
  horizontal_prism : ℝ
  vertical_prism : ℝ
  magnitude : ℝ

/-- The `ClinicalInducedPrism` struct (`src/prism.rs`). -/
structure ClinicalInducedPrism where
  eye : Eye
  prism : InducedPrism

/-- Model of `ClinicalInducedPrism::horizontal` (`src/prism.rs` lines 96–120): `None`
when the raw value is exactly 0; otherwise the magnitude with the
eye-dependent base (OD: negative → In; OS: negative → Out). -/
def ClinicalInducedPrism.horizontal (self : ClinicalInducedPrism) :
    Option (ℝ × HorizontalBase) :=
  if self.prism.horizontal_prism = 0 then none
  else
    some (|self.prism.horizontal_prism|,
      match self.eye with
      | Eye.OD =>
          if self.prism.horizontal_prism < 0 then HorizontalBase.In
          else HorizontalBase.Out
      | Eye.OS =>
          if self.prism.horizontal_prism < 0 then HorizontalBase.Out
          else HorizontalBase.In)

/-- Model of `ClinicalInducedPrism::vertical` (`src/prism.rs` lines 123–137): `None`
when the raw value is exactly 0; otherwise the magnitude with base Up for a
negative raw value and Down otherwise, independently of the eye. -/
def ClinicalInducedPrism.vertical (self : ClinicalInducedPrism) :
    Option (ℝ × VerticalBase) :=
  if self.prism.vertical_prism = 0 then none
  else
    some (|self.prism.vertical_prism|,
      if self.prism.vertical_prism < 0 then VerticalBase.Up else VerticalBase.Down)

/-- The eye-dependent nasal flip inside `induced_prism` (`src/prism.rs` lines
192–195): `dec.horizontal_mm` for OD, negated for OS. -/
def decInAdjusted (eye : Eye) (dec : Decentration) : ℝ :=
  match eye with
  | Eye.OD => dec.horizontal_mm
  | Eye.OS => -dec.horizontal_mm

/-- Model of `induced_prism` (`src/prism.rs` lines 177–210).  The power matrix is the
same inline computation transcribed in `SpheroCyl.toMatrix`;
`horizontal = (px * -in_adj / 10) + (pt * -up / 10)`,
`vertical = (-pt * in_adj / 10) + (-py * up / 10)`,
`magnitude = hypot(horizontal, vertical)`. -/
def induced_prism (eye : Eye) (lens : SpheroCyl) (dec : Decentration) :
    ClinicalInducedPrism :=
  let horiz_value := lens.toMatrix.px * (-decInAdjusted eye dec) / 10 +
    lens.toMatrix.pt * (-dec.vertical_mm) / 10
  let vert_value := -lens.toMatrix.pt * decInAdjusted eye dec / 10 +
    -lens.toMatrix.py * dec.vertical_mm / 10
  { eye := eye
    prism :=
      { horizontal_prism := horiz_value
        vertical_prism := vert_value
        magnitude := Real.sqrt (horiz_value ^ 2 + vert_value ^ 2) } }

/-- Model of `convert_power` (`src/convert_power.rs` lines 18–25), with the two
`assert!` failure paths made explicit as `none`: asserts `n_assumed > 1.0`
then `n_actual > 1.0`, then returns
`measured * ((n_actual - 1) / (n_assumed - 1))`. -/
def convert_power (measured_power_diopters n_assumed n_actual : ℝ) : Option ℝ :=
  if 1 < n_assumed then
    if 1 < n_actual then
      some (measured_power_diopters * ((n_actual - 1) / (n_assumed - 1)))
    else none
  else none

/-- Modelled from the spec: the vertical formula of §4.3 steps 2–3,
`vert = Pt·(dec_in_adj/10) + Py·(dec_up/10)`, used by claims C2 and C3 as the
reference against which the stored vertical component of `induced_prism` is
compared. -/
def specVerticalFormula (eye : Eye) (lens : SpheroCyl) (dec : Decentration) : ℝ :=
  lens.toMatrix.pt * (decInAdjusted eye dec / 10) +
    lens.toMatrix.py * (dec.vertical_mm / 10)

/-! ## Helper lemmas: angle conversion and axis normalization -/

lemma toRadians_toDegrees (x : ℝ) : toRadians (toDegrees x) = x := by
  unfold toRadians toDegrees
  field_simp

lemma toDegrees_toRadians (x : ℝ) : toDegrees (toRadians x) = x := by
  unfold toRadians toDegrees
  field_simp

lemma fmod_self_of_Ico {w : ℝ} (h0 : 0 ≤ w) (h1 : w < 180) : fmod w 180 = w := by
  unfold fmod rtrunc
  have hq : (0 : ℝ) ≤ w / 180 := by positivity
  rw [if_pos hq]
  have hfl : ⌊w / 180⌋ = 0 := by
    rw [Int.floor_eq_zero_iff]
    exact ⟨hq, by rw [div_lt_one (by norm_num : (0:ℝ) < 180)]; exact h1⟩
  rw [hfl]
  simp

lemma norm180_of_Ico {w : ℝ} (h0 : 0 ≤ w) (h1 : w < 180) : norm180 w = w := by
  unfold norm180
  rw [fmod_self_of_Ico h0 h1, if_neg (not_lt.mpr h0)]

lemma norm180_cases {w : ℝ} (hl : -180 < w) (hr : w ≤ 180) :
    (0 ≤ norm180 w ∧ norm180 w < 180) ∧
      (norm180 w = w ∨ norm180 w = w + 180 ∨ norm180 w = w - 180) := by
  by_cases hw : w < 0
  · have hfm : fmod w 180 = w := by
      unfold fmod rtrunc
      have hq : ¬ (0 : ℝ) ≤ w / 180 := by
        rw [not_le]
        exact div_neg_of_neg_of_pos hw (by norm_num)
      rw [if_neg hq]
      have hcl : ⌈w / 180⌉ = 0 := by
        rw [Int.ceil_eq_zero_iff]
        constructor
        · rw [lt_div_iff₀ (by norm_num : (0:ℝ) < 180)]
          linarith
        · exact le_of_lt (div_neg_of_neg_of_pos hw (by norm_num))
      rw [hcl]
      simp
    unfold norm180
    rw [hfm, if_pos hw]
    exact ⟨⟨by linarith, by linarith⟩, Or.inr (Or.inl rfl)⟩
  · push_neg at hw
    by_cases hw180 : w < 180
    · rw [norm180_of_Ico hw hw180]
      exact ⟨⟨hw, hw180⟩, Or.inl rfl⟩
    · have hw' : w = 180 := le_antisymm hr (not_lt.mp hw180)
      subst hw'
      have hfm : fmod (180 : ℝ) 180 = 0 := by
        unfold fmod rtrunc
        norm_num
      unfold norm180
      rw [hfm, if_neg (lt_irrefl 0)]
      exact ⟨⟨le_refl 0, by norm_num⟩, Or.inr (Or.inr (by norm_num))⟩

lemma toDegrees_mem_Ioc {θ : ℝ} (h : θ ∈ Set.Ioc (-π) π) :
    -180 < toDegrees θ ∧ toDegrees θ ≤ 180 := by
  obtain ⟨h1, h2⟩ := h
  have hpos : (0 : ℝ) < 180 / π := by positivity
  constructor
  · have hmul := mul_lt_mul_of_pos_right h1 hpos
    have heq : (-π) * (180 / π) = -180 := by
      field_simp
      ring
    unfold toDegrees
    linarith
  · have hmul := mul_le_mul_of_nonneg_right h2 (le_of_lt hpos)
    have heq : π * (180 / π) = 180 := by field_simp
    unfold toDegrees
    linarith

lemma atan2_mem_Ioc (y x : ℝ) : atan2 y x ∈ Set.Ioc (-π) π :=
  Complex.arg_mem_Ioc _

lemma trig_norm180 {θ : ℝ} (hθ : θ ∈ Set.Ioc (-π) π) :
    Real.sin (toRadians (norm180 (toDegrees θ))) ^ 2 = Real.sin θ ^ 2 ∧
      Real.sin (toRadians (norm180 (toDegrees θ))) *
        Real.cos (toRadians (norm180 (toDegrees θ))) = Real.sin θ * Real.cos θ ∧
      Real.cos (toRadians (norm180 (toDegrees θ))) ^ 2 = Real.cos θ ^ 2 := by
  obtain ⟨hl, hr⟩ := toDegrees_mem_Ioc hθ
  rcases (norm180_cases hl hr).2 with h | h | h
  · rw [h, toRadians_toDegrees]
    exact ⟨rfl, rfl, rfl⟩
  · have hsh : toRadians (toDegrees θ + 180) = θ + π := by
      have h1 : toRadians (toDegrees θ + 180) = toRadians (toDegrees θ) + π := by
        unfold toRadians
        ring
      rw [h1, toRadians_toDegrees]
    rw [h, hsh, Real.sin_add_pi, Real.cos_add_pi]
    exact ⟨by ring, by ring, by ring⟩
  · have hsh : toRadians (toDegrees θ - 180) = θ - π := by
      have h1 : toRadians (toDegrees θ - 180) = toRadians (toDegrees θ) - π := by
        unfold toRadians
        ring
      rw [h1, toRadians_toDegrees]
    rw [h, hsh, Real.sin_sub_pi, Real.cos_sub_pi]
    exact ⟨by ring, by ring, by ring⟩

/-! ## Helper lemmas: the matrix decomposition -/

lemma fm_inner (px pt py : ℝ) :
    max ((px + py) * (px + py) - 4 * (px * py - pt * pt)) 0
      = (px - py) ^ 2 + 4 * pt ^ 2 := by
  have hexp : (px + py) * (px + py) - 4 * (px * py - pt * pt)
      = (px - py) ^ 2 + 4 * pt ^ 2 := by ring
  rw [hexp]
  exact max_eq_left (by positivity)

lemma fmDelta_nonneg (px pt py : ℝ) : 0 ≤ fmDelta px pt py :=
  Real.sqrt_nonneg _

lemma fmDelta_sq (px pt py : ℝ) :
    fmDelta px pt py ^ 2 = (px - py) ^ 2 + 4 * pt ^ 2 := by
  unfold fmDelta
  rw [fm_inner]
  exact Real.sq_sqrt (by positivity)

lemma abs_sub_le_fmDelta (px pt py : ℝ) : |px - py| ≤ fmDelta px pt py := by
  rw [← Real.sqrt_sq_eq_abs]
  unfold fmDelta
  rw [fm_inner]
  exact Real.sqrt_le_sqrt (by nlinarith [sq_nonneg pt])

lemma fmSphere_sub (px pt py : ℝ) :
    fmSphere px pt py - px = (py - px + fmDelta px pt py) / 2 := by
  unfold fmSphere
  ring

/-- The trigonometric heart of the decomposition: with `Δ = fmDelta`,
`y = fmSphere − px` and `θ = atan2 y pt`, the products `Δ·sin²θ`, `Δ·sinθcosθ`
and `Δ·cos²θ` recover `y`, `pt` and `Δ − y`. -/
lemma decomposition_trig (px pt py : ℝ) :
    fmDelta px pt py * Real.sin (atan2 (fmSphere px pt py - px) pt) ^ 2
        = fmSphere px pt py - px ∧
      fmDelta px pt py *
          (Real.sin (atan2 (fmSphere px pt py - px) pt) *
            Real.cos (atan2 (fmSphere px pt py - px) pt)) = pt ∧
      fmDelta px pt py * Real.cos (atan2 (fmSphere px pt py - px) pt) ^ 2
        = fmDelta px pt py - (fmSphere px pt py - px) := by
  set Δ := fmDelta px pt py with hΔdef
  set y := fmSphere px pt py - px with hydef
  have hΔsq : Δ ^ 2 = (px - py) ^ 2 + 4 * pt ^ 2 := fmDelta_sq px pt py
  have hΔnn : 0 ≤ Δ := fmDelta_nonneg px pt py
  have hyeq : y = (py - px + Δ) / 2 := fmSphere_sub px pt py
  have hkey : pt ^ 2 + y ^ 2 = Δ * y := by
    rw [hyeq]
    linear_combination (-1 / 4 : ℝ) * hΔsq
  have hynn : 0 ≤ y := by
    have habs : |px - py| ≤ Δ := abs_sub_le_fmDelta px pt py
    have h2 : px - py ≤ Δ := le_trans (le_abs_self _) habs
    rw [hyeq]
    linarith
  by_cases hz : pt = 0 ∧ y = 0
  · obtain ⟨hpt0, hy0⟩ := hz
    have hzero : (⟨pt, y⟩ : ℂ) = 0 := by
      rw [Complex.ext_iff]
      exact ⟨by simp [hpt0], by simp [hy0]⟩
    have hθ : atan2 y pt = 0 := by
      unfold atan2
      rw [hzero, Complex.arg_zero]
    rw [hθ, Real.sin_zero, Real.cos_zero]
    exact ⟨by rw [hy0]; ring, by rw [hpt0]; ring, by rw [hy0]; ring⟩
  · have hzne : (⟨pt, y⟩ : ℂ) ≠ 0 := by
      rw [Ne, Complex.ext_iff]
      simp only [Complex.zero_re, Complex.zero_im]
      exact hz
    have hA2 : Complex.abs ⟨pt, y⟩ ^ 2 = Δ * y := by
      rw [Complex.sq_abs, Complex.normSq_mk]
      linear_combination hkey
    have hApos : 0 < Complex.abs ⟨pt, y⟩ := Complex.abs.pos hzne
    have hAne : Complex.abs ⟨pt, y⟩ ≠ 0 := ne_of_gt hApos
    have hΔy_pos : 0 < Δ * y := by
      rw [← hA2]
      exact pow_pos hApos 2
    have hΔpos : 0 < Δ := by
      rcases hΔnn.lt_or_eq with h | h
      · exact h
      · exfalso
        rw [← h, zero_mul] at hΔy_pos
        exact lt_irrefl 0 hΔy_pos
    have hypos : 0 < y := by
      rcases hynn.lt_or_eq with h | h
      · exact h
      · exfalso
        rw [← h, mul_zero] at hΔy_pos
        exact lt_irrefl 0 hΔy_pos
    have hsin : Real.sin (atan2 y pt) = y / Complex.abs ⟨pt, y⟩ :=
      Complex.sin_arg _
    have hcos : Real.cos (atan2 y pt) = pt / Complex.abs ⟨pt, y⟩ :=
      Complex.cos_arg hzne
    rw [hsin, hcos]
    refine ⟨?_, ?_, ?_⟩
    · field_simp
      linear_combination (-y) * hA2
    · field_simp
      linear_combination (-pt) * hA2
    · field_simp
      linear_combination Δ * hkey - (Δ - y) * hA2

/-- Round trip on the matrix side: decomposing any symmetric power matrix and
converting the result back yields the original matrix exactly. -/
lemma toMatrix_fromMatrix (px pt py : ℝ) :
    (fromMatrix px pt py).toMatrix = ⟨px, pt, py⟩ := by
  obtain ⟨h1, h2, h3⟩ := decomposition_trig px pt py
  obtain ⟨t1, t2, t3⟩ := trig_norm180 (atan2_mem_Ioc (fmSphere px pt py - px) pt)
  have hS : fmSphere px pt py = (px + py + fmDelta px pt py) / 2 := by
    unfold fmSphere
    ring
  refine PowerMatrix.ext ?_ ?_ ?_
  · show fmSphere px pt py + -fmDelta px pt py *
        Real.sin (toRadians (fmAxis px pt py)) *
        Real.sin (toRadians (fmAxis px pt py)) = px
    unfold fmAxis
    linear_combination (-(fmDelta px pt py)) * t1 - h1
  · show -(-fmDelta px pt py) * Real.sin (toRadians (fmAxis px pt py)) *
        Real.cos (toRadians (fmAxis px pt py)) = pt
    unfold fmAxis
    linear_combination (fmDelta px pt py) * t2 + h2
  · show fmSphere px pt py + -fmDelta px pt py *
        Real.cos (toRadians (fmAxis px pt py)) *
        Real.cos (toRadians (fmAxis px pt py)) = py
    unfold fmAxis
    linear_combination (-(fmDelta px pt py)) * t3 - h3 + 2 * hS

lemma fromMatrix_cylinder_nonpos (px pt py : ℝ) :
    (fromMatrix px pt py).cylinder ≤ 0 :=
  neg_nonpos.mpr (fmDelta_nonneg px pt py)

lemma fromMatrix_axis_mem (px pt py : ℝ) :
    0 ≤ (fromMatrix px pt py).axis_deg ∧ (fromMatrix px pt py).axis_deg < 180 := by
  show 0 ≤ fmAxis px pt py ∧ fmAxis px pt py < 180
  unfold fmAxis
  have hb := toDegrees_mem_Ioc (atan2_mem_Ioc (fmSphere px pt py - px) pt)
  exact (norm180_cases hb.1 hb.2).1

lemma transpose_axis (l : SpheroCyl) :
    l.transpose.axis_deg =
      if 90 ≤ l.axis_deg then l.axis_deg - 90 else l.axis_deg + 90 := rfl

lemma transpose_mk (s c a : ℝ) :
    (SpheroCyl.mk s c a).transpose =
      SpheroCyl.mk (s + c) (-c) (if 90 ≤ a then a - 90 else a + 90) := rfl

lemma crossed_cylinders_def (l1 l2 : SpheroCyl) :
    crossed_cylinders l1 l2 =
      fromMatrix (l1.toMatrix.px + l2.toMatrix.px)
        (l1.toMatrix.pt + l2.toMatrix.pt)
        (l1.toMatrix.py + l2.toMatrix.py) := rfl

lemma induced_vertical_eq (eye : Eye) (lens : SpheroCyl) (dec : Decentration) :
    (induced_prism eye lens dec).prism.vertical_prism =
      -specVerticalFormula eye lens dec := by
  show -lens.toMatrix.pt * decInAdjusted eye dec / 10 +
      -lens.toMatrix.py * dec.vertical_mm / 10 = -specVerticalFormula eye lens dec
  unfold specVerticalFormula
  ring

lemma induced_horizontal_OD (lens : SpheroCyl) (dec : Decentration) :
    (induced_prism Eye.OD lens dec).horizontal =
      if lens.toMatrix.px * (-dec.horizontal_mm) / 10 +
          lens.toMatrix.pt * (-dec.vertical_mm) / 10 = 0 then none
      else
        some (|lens.toMatrix.px * (-dec.horizontal_mm) / 10 +
            lens.toMatrix.pt * (-dec.vertical_mm) / 10|,
          if lens.toMatrix.px * (-dec.horizontal_mm) / 10 +
              lens.toMatrix.pt * (-dec.vertical_mm) / 10 < 0
          then HorizontalBase.In else HorizontalBase.Out) := rfl

lemma induced_horizontal_OS (lens : SpheroCyl) (dec : Decentration) :
    (induced_prism Eye.OS lens dec).horizontal =
      if lens.toMatrix.px * (- -dec.horizontal_mm) / 10 +
          lens.toMatrix.pt * (-dec.vertical_mm) / 10 = 0 then none
      else
        some (|lens.toMatrix.px * (- -dec.horizontal_mm) / 10 +
            lens.toMatrix.pt * (-dec.vertical_mm) / 10|,
          if lens.toMatrix.px * (- -dec.horizontal_mm) / 10 +
              lens.toMatrix.pt * (-dec.vertical_mm) / 10 < 0
          then HorizontalBase.Out else HorizontalBase.In) := rfl

lemma toMatrix_zero_cyl (s a : ℝ) :
    (SpheroCyl.mk s 0 a).toMatrix = PowerMatrix.mk s 0 s := by
  simp [SpheroCyl.toMatrix]

lemma toMatrix_example : (SpheroCyl.mk 0 (-2) 0).toMatrix = PowerMatrix.mk 0 0 (-2) := by
  simp [SpheroCyl.toMatrix, toRadians]

lemma specVF_example :
    specVerticalFormula Eye.OD (SpheroCyl.mk 0 (-2) 0) (Decentration.mk 4 0) =
      -(4 / 5) := by
  unfold specVerticalFormula decInAdjusted
  rw [toMatrix_example]
  norm_num

/-! ## Claim theorems -/

/-- Claim C1 (confirmed): for every pair of `SpheroCyl` inputs, the power
matrix of `crossed_cylinders lens1 lens2` — `Px = S + C·sin²(axis)`,
`Pt = −C·sin·cos`, `Py = S + C·cos²(axis)` with the axis in radians — equals
the componentwise sum of the two input power matrices within `1e-9` absolute
tolerance (in fact exactly, over real arithmetic), for any axis values. -/
theorem c1_matrix_additivity (lens1 lens2 : SpheroCyl) :
    |(crossed_cylinders lens1 lens2).toMatrix.px -
        (lens1.toMatrix.px + lens2.toMatrix.px)| ≤ 1e-9 ∧
      |(crossed_cylinders lens1 lens2).toMatrix.pt -
        (lens1.toMatrix.pt + lens2.toMatrix.pt)| ≤ 1e-9 ∧
      |(crossed_cylinders lens1 lens2).toMatrix.py -
        (lens1.toMatrix.py + lens2.toMatrix.py)| ≤ 1e-9 := by
  have h : (crossed_cylinders lens1 lens2).toMatrix =
      ⟨lens1.toMatrix.px + lens2.toMatrix.px,
        lens1.toMatrix.pt + lens2.toMatrix.pt,
        lens1.toMatrix.py + lens2.toMatrix.py⟩ :=
    toMatrix_fromMatrix _ _ _
  rw [h]
  norm_num

/-- Claim C6 (confirmed): the output of `crossed_cylinders` is always in
minus-cylinder convention with normalized axis: `cylinder ≤ 0` and
`axis_deg ∈ [0, 180)`. -/
theorem c6_minus_cylinder_normalized_axis (lens1 lens2 : SpheroCyl) :
    (crossed_cylinders lens1 lens2).cylinder ≤ 0 ∧
      0 ≤ (crossed_cylinders lens1 lens2).axis_deg ∧
      (crossed_cylinders lens1 lens2).axis_deg < 180 :=
  ⟨fromMatrix_cylinder_nonpos _ _ _, fromMatrix_axis_mem _ _ _⟩

/-- Claim C7 counterexample: for the out-of-range axis `200°` the claim fails:
`transpose` twice maps axis 200 to 20, not back to 200 (sphere and cylinder
are restored, but the axis is off by 180). -/
theorem c7_counterexample :
    ((SpheroCyl.mk 1 (-1) 200).transpose.transpose).axis_deg = 20 ∧
      ((SpheroCyl.mk 1 (-1) 200).transpose.transpose).axis_deg ≠
        (SpheroCyl.mk 1 (-1) 200).axis_deg := by
  have haxis : ((SpheroCyl.mk 1 (-1) 200).transpose.transpose).axis_deg = 20 := by
    rw [transpose_axis, transpose_axis]
    norm_num
  refine ⟨haxis, ?_⟩
  rw [haxis]
  norm_num

/-- Claim C7 (amended): double transposition returns the original `SpheroCyl`
(exactly, over real arithmetic) for every input whose axis lies in the
canonical range `[0, 180)`; out-of-range axes are not restored (see the
counterexample at axis 200). -/
theorem c7_transpose_involution (lens : SpheroCyl) (h0 : 0 ≤ lens.axis_deg)
    (h1 : lens.axis_deg < 180) : lens.transpose.transpose = lens := by
  obtain ⟨s, c, a⟩ := lens
  have h0' : 0 ≤ a := h0
  have h1' : a < 180 := h1
  rw [transpose_mk, transpose_mk]
  by_cases h : 90 ≤ a
  · rw [if_pos h, if_neg (by linarith : ¬ (90 : ℝ) ≤ a - 90)]
    simp only [SpheroCyl.mk.injEq]
    exact ⟨by ring, by ring, by ring⟩
  · rw [if_neg h, if_pos (by linarith : (90 : ℝ) ≤ a + 90)]
    simp only [SpheroCyl.mk.injEq]
    exact ⟨by ring, by ring, by ring⟩

/-- Witness for C7 (amended) at the concrete in-range input `(1, −1, 45°)`. -/
theorem c7_involution_witness :
    (SpheroCyl.mk 1 (-1) 45).transpose.transpose = SpheroCyl.mk 1 (-1) 45 :=
  c7_transpose_involution _ (by norm_num) (by norm_num)

/-- Claim C9 (confirmed): `convert_power` fails its input-validity assertions
exactly when `n_assumed ≤ 1` or `n_actual ≤ 1`; for `n_assumed > 1` and
`n_actual > 1` it returns `measured * (n_actual − 1) / (n_assumed − 1)` with
no other failure path. -/
theorem c9_convert_power_assertions (measured n_assumed n_actual : ℝ) :
    (convert_power measured n_assumed n_actual = none ↔
      n_assumed ≤ 1 ∨ n_actual ≤ 1) ∧
      (1 < n_assumed → 1 < n_actual →
        convert_power measured n_assumed n_actual =
          some (measured * ((n_actual - 1) / (n_assumed - 1)))) := by
  unfold convert_power
  constructor
  · constructor
    · intro h
      by_contra hc
      push_neg at hc
      obtain ⟨ha, hb⟩ := hc
      rw [if_pos ha, if_pos hb] at h
      exact Option.some_ne_none _ h
    · intro h
      rcases h with h | h
      · rw [if_neg (not_lt.mpr h)]
      · by_cases ha : 1 < n_assumed
        · rw [if_pos ha, if_neg (not_lt.mpr h)]
        · rw [if_neg ha]
  · intro ha hb
    rw [if_pos ha, if_pos hb]

/-- Witness for C9 at concrete indices: `n_assumed = 3/2 > 1`,
`n_actual = 2 > 1` succeeds with `2·(1/(1/2)) = 4`; `n_assumed = 1` trips the
assertion. -/
theorem c9_witness :
    convert_power 2 (3 / 2) 2 = some 4 ∧ convert_power 2 1 2 = none := by
  constructor
  · have h := (c9_convert_power_assertions 2 (3 / 2) 2).2 (by norm_num) (by norm_num)
    rw [h]
    norm_num
  · exact (c9_convert_power_assertions 2 1 2).1.mpr (Or.inl (by norm_num))

/-- Claim C10 (confirmed): transposition preserves meridional power exactly
over real arithmetic: `lens.transpose.power_at φ = lens.power_at φ` for every
lens and meridian. -/
theorem c10_transpose_preserves_power_at (lens : SpheroCyl) (phi_deg : ℝ) :
    lens.transpose.power_at phi_deg = lens.power_at phi_deg := by
  obtain ⟨s, c, a⟩ := lens
  rw [transpose_mk]
  by_cases h : 90 ≤ a
  · rw [if_pos h]
    show s + c + -c * Real.sin (toRadians (phi_deg - (a - 90))) ^ 2 =
      s + c * Real.sin (toRadians (phi_deg - a)) ^ 2
    have harg : toRadians (phi_deg - (a - 90)) = toRadians (phi_deg - a) + π / 2 := by
      unfold toRadians
      ring
    rw [harg, Real.sin_add_pi_div_two]
    linear_combination (-c) * Real.sin_sq_add_cos_sq (toRadians (phi_deg - a))
  · rw [if_neg h]
    show s + c + -c * Real.sin (toRadians (phi_deg - (a + 90))) ^ 2 =
      s + c * Real.sin (toRadians (phi_deg - a)) ^ 2
    have harg : toRadians (phi_deg - (a + 90)) = toRadians (phi_deg - a) - π / 2 := by
      unfold toRadians
      ring
    rw [harg, Real.sin_sub_pi_div_two]
    linear_combination (-c) * Real.sin_sq_add_cos_sq (toRadians (phi_deg - a))

/-- Claim C3 counterexample: for OD, lens `(0, −2 DC, axis 0°)` and a 4 mm
upward decentration, the code stores `vertical_prism = +0.8` while the spec
formula `Pt·(dec_in_adj/10) + Py·(dec_up/10)` gives `−0.8`: the stored raw
value is not the spec formula. -/
theorem c3_counterexample :
    (induced_prism Eye.OD (SpheroCyl.mk 0 (-2) 0)
        (Decentration.mk 4 0)).prism.vertical_prism ≠
      specVerticalFormula Eye.OD (SpheroCyl.mk 0 (-2) 0) (Decentration.mk 4 0) := by
  rw [induced_vertical_eq, specVF_example]
  norm_num

/-- Claim C3 (amended): the raw signed vertical component stored by
`induced_prism` equals the NEGATION of the spec formula:
`-(Pt·(dec_in_adj/10) + Py·(dec_up/10))`, with `dec_in_adj` the eye-adjusted
horizontal decentration. -/
theorem c3_vertical_prism_negated (eye : Eye) (lens : SpheroCyl)
    (dec : Decentration) :
    (induced_prism eye lens dec).prism.vertical_prism =
      -(lens.toMatrix.pt * (decInAdjusted eye dec / 10) +
        lens.toMatrix.py * (dec.vertical_mm / 10)) :=
  induced_vertical_eq eye lens dec

/-- Claim C2 (confirmed): the clinical vertical output of `induced_prism`
agrees with the composed algorithm of the spec: with
`vert_spec = Pt·(dec_in_adj/10) + Py·(dec_up/10)`, the vertical query is
`none` exactly when `vert_spec = 0`, and otherwise returns amount
`|vert_spec|` with base Up when `vert_spec > 0` and base Down when
`vert_spec < 0` (the stored negation in the code and the inverted base mapping
cancel). -/
theorem c2_vertical_query (eye : Eye) (lens : SpheroCyl) (dec : Decentration) :
    ((induced_prism eye lens dec).vertical = none ↔
      specVerticalFormula eye lens dec = 0) ∧
      (0 < specVerticalFormula eye lens dec →
        (induced_prism eye lens dec).vertical =
          some (|specVerticalFormula eye lens dec|, VerticalBase.Up)) ∧
      (specVerticalFormula eye lens dec < 0 →
        (induced_prism eye lens dec).vertical =
          some (|specVerticalFormula eye lens dec|, VerticalBase.Down)) := by
  have hval := induced_vertical_eq eye lens dec
  unfold ClinicalInducedPrism.vertical
  rw [hval]
  refine ⟨?_, ?_, ?_⟩
  · constructor
    · intro h
      by_cases hv0 : specVerticalFormula eye lens dec = 0
      · exact hv0
      · exfalso
        rw [if_neg (by simpa [neg_eq_zero] using hv0)] at h
        exact Option.some_ne_none _ h
    · intro h
      rw [if_pos (by rw [h]; ring)]
  · intro hpos
    rw [if_neg (by simpa [neg_eq_zero] using ne_of_gt hpos),
      if_pos (by linarith : -specVerticalFormula eye lens dec < 0), abs_neg]
  · intro hneg
    rw [if_neg (by simpa [neg_eq_zero] using ne_of_lt hneg),
      if_neg (by linarith : ¬ -specVerticalFormula eye lens dec < 0), abs_neg]

/-- Witness for C2 at OD, lens `(0, −2 DC, 0°)`, 4 mm up: `vert_spec = −0.8`,
so the query reports 0.8 prism diopters Base Down. -/
theorem c2_witness :
    (induced_prism Eye.OD (SpheroCyl.mk 0 (-2) 0) (Decentration.mk 4 0)).vertical =
      some (4 / 5, VerticalBase.Down) := by
  have h := (c2_vertical_query Eye.OD (SpheroCyl.mk 0 (-2) 0)
      (Decentration.mk 4 0)).2.2 (by rw [specVF_example]; norm_num)
  rw [specVF_example] at h
  rw [h, abs_neg, abs_of_nonneg (by norm_num : (0:ℝ) ≤ 4 / 5)]

/-- Claim C8 (confirmed): `HorizontalPrism.base?` returns `none` exactly when
the amount is exactly zero or within `f64::EPSILON` of zero, while
`VerticalPrism.base?` returns `none` exactly when the amount is exactly zero;
outside those zero regions each query returns the stored base direction. -/
theorem c8_zero_handling (h : HorizontalPrism) (v : VerticalPrism) :
    (h.base? = none ↔ (h.amount = 0 ∨ |h.amount - 0| < f64Epsilon)) ∧
      (v.base? = none ↔ v.amount = 0) ∧
      (¬(h.amount = 0 ∨ |h.amount - 0| < f64Epsilon) → h.base? = some h.base) ∧
      (v.amount ≠ 0 → v.base? = some v.base) := by
  unfold HorizontalPrism.base? VerticalPrism.base? HorizontalPrism.is_none
    VerticalPrism.is_none
  refine ⟨?_, ?_, ?_, ?_⟩
  · by_cases hc : h.amount = 0 ∨ |h.amount - 0| < f64Epsilon
    · rw [if_pos hc]
      simpa using hc
    · rw [if_neg hc]
      simpa using hc
  · by_cases hc : v.amount = 0
    · rw [if_pos hc]
      simp [hc]
    · rw [if_neg hc]
      simp [hc]
  · intro hc
    rw [if_neg hc]
  · intro hc
    rw [if_neg hc]

/-- Witness for C8 at concrete prisms of amount 1 (outside both zero
regions): both queries return the stored base. -/
theorem c8_witness :
    (HorizontalPrism.mk 1 HorizontalBase.In).base? = some HorizontalBase.In ∧
      (VerticalPrism.mk 1 VerticalBase.Up).base? = some VerticalBase.Up := by
  have heps : f64Epsilon < 1 := by
    unfold f64Epsilon
    rw [zpow_neg]
    rw [inv_lt_one_iff₀]
    right
    have : (1 : ℝ) < 2 := by norm_num
    calc (1 : ℝ) < 2 := by norm_num
      _ ≤ 2 ^ (52 : ℤ) := by
        nth_rewrite 1 [show ((2 : ℝ) = 2 ^ (1 : ℤ)) from (zpow_one 2).symm]
        exact zpow_le_zpow_right₀ (by norm_num) (by norm_num)
  have h := c8_zero_handling (HorizontalPrism.mk 1 HorizontalBase.In)
      (VerticalPrism.mk 1 VerticalBase.Up)
  refine ⟨h.2.2.1 ?_, h.2.2.2 (by norm_num)⟩
  rintro (h1 | h1)
  · exact absurd h1 (by norm_num)
  · rw [show |(HorizontalPrism.mk 1 HorizontalBase.In).amount - 0| = 1 by norm_num] at h1
    linarith

/-- Claim C5 (confirmed): for every pure-sphere lens and purely horizontal
decentration with nonzero sphere and nonzero horizontal offset, OD and OS
report the same horizontal magnitude and the same resolved base direction;
in particular for sphere 3.0 D and 5 mm inward decentration, OD has signed
horizontal value −1.5 resolving to Base In, and OS also reports 1.5 Base In. -/
theorem c5_eye_mirroring :
    (∀ (lens : SpheroCyl) (dec : Decentration),
        lens.cylinder = 0 → dec.vertical_mm = 0 →
        lens.sphere ≠ 0 → dec.horizontal_mm ≠ 0 →
        ∃ p : ℝ × HorizontalBase,
          (induced_prism Eye.OD lens dec).horizontal = some p ∧
            (induced_prism Eye.OS lens dec).horizontal = some p) ∧
      (induced_prism Eye.OD (SpheroCyl.mk 3 0 0)
          (Decentration.mk 0 5)).prism.horizontal_prism = -1.5 ∧
      (induced_prism Eye.OD (SpheroCyl.mk 3 0 0) (Decentration.mk 0 5)).horizontal
          = some (1.5, HorizontalBase.In) ∧
      (induced_prism Eye.OS (SpheroCyl.mk 3 0 0) (Decentration.mk 0 5)).horizontal
          = some (1.5, HorizontalBase.In) := by
  have hgen : ∀ (lens : SpheroCyl) (dec : Decentration),
      lens.cylinder = 0 → dec.vertical_mm = 0 →
      lens.sphere ≠ 0 → dec.horizontal_mm ≠ 0 →
      ∃ p : ℝ × HorizontalBase,
        (induced_prism Eye.OD lens dec).horizontal = some p ∧
          (induced_prism Eye.OS lens dec).horizontal = some p := by
    intro lens dec hc hv hs hh
    obtain ⟨s, c, a⟩ := lens
    obtain ⟨dv, dh⟩ := dec
    have hc' : c = 0 := hc
    have hv' : dv = 0 := hv
    have hs' : s ≠ 0 := hs
    have hh' : dh ≠ 0 := hh
    subst hc' hv'
    have hmat := toMatrix_zero_cyl s a
    have hOD : (SpheroCyl.mk s 0 a).toMatrix.px *
          (-(Decentration.mk 0 dh).horizontal_mm) / 10 +
        (SpheroCyl.mk s 0 a).toMatrix.pt *
          (-(Decentration.mk 0 dh).vertical_mm) / 10 = -(s * dh / 10) := by
      rw [hmat]
      show s * -dh / 10 + 0 * -0 / 10 = -(s * dh / 10)
      ring
    have hOS : (SpheroCyl.mk s 0 a).toMatrix.px *
          (- -(Decentration.mk 0 dh).horizontal_mm) / 10 +
        (SpheroCyl.mk s 0 a).toMatrix.pt *
          (-(Decentration.mk 0 dh).vertical_mm) / 10 = s * dh / 10 := by
      rw [hmat]
      show s * - -dh / 10 + 0 * -0 / 10 = s * dh / 10
      ring
    have hqne : s * dh / 10 ≠ 0 := div_ne_zero (mul_ne_zero hs' hh') (by norm_num)
    rw [induced_horizontal_OD, induced_horizontal_OS, hOD, hOS]
    rcases hqne.lt_or_lt with hlt | hgt
    · refine ⟨(-(s * dh / 10), HorizontalBase.Out), ?_, ?_⟩
      · rw [if_neg (neg_ne_zero.mpr hqne), if_neg (by linarith : ¬ -(s * dh / 10) < 0),
          abs_neg, abs_of_neg hlt]
      · rw [if_neg hqne, if_pos hlt, abs_of_neg hlt]
    · refine ⟨(s * dh / 10, HorizontalBase.In), ?_, ?_⟩
      · rw [if_neg (neg_ne_zero.mpr hqne), if_pos (by linarith : -(s * dh / 10) < 0),
          abs_neg, abs_of_pos hgt]
      · rw [if_neg hqne, if_neg (by linarith : ¬ s * dh / 10 < 0), abs_of_pos hgt]
  have hmat3 := toMatrix_zero_cyl 3 0
  have hvalOD : (SpheroCyl.mk 3 0 0).toMatrix.px *
        (-(Decentration.mk 0 5).horizontal_mm) / 10 +
      (SpheroCyl.mk 3 0 0).toMatrix.pt *
        (-(Decentration.mk 0 5).vertical_mm) / 10 = -1.5 := by
    rw [hmat3]
    show (3 : ℝ) * -5 / 10 + 0 * -0 / 10 = -1.5
    norm_num
  have hvalOS : (SpheroCyl.mk 3 0 0).toMatrix.px *
        (- -(Decentration.mk 0 5).horizontal_mm) / 10 +
      (SpheroCyl.mk 3 0 0).toMatrix.pt *
        (-(Decentration.mk 0 5).vertical_mm) / 10 = 1.5 := by
    rw [hmat3]
    show (3 : ℝ) * - -5 / 10 + 0 * -0 / 10 = 1.5
    norm_num
  refine ⟨hgen, hvalOD, ?_, ?_⟩
  · rw [induced_horizontal_OD, hvalOD,
      if_neg (by norm_num : ¬ (-1.5 : ℝ) = 0), if_pos (by norm_num : (-1.5 : ℝ) < 0),
      show |(-1.5 : ℝ)| = 1.5 by rw [abs_of_neg] <;> norm_num]
  · rw [induced_horizontal_OS, hvalOS,
      if_neg (by norm_num : ¬ (1.5 : ℝ) = 0), if_neg (by norm_num : ¬ (1.5 : ℝ) < 0),
      show |(1.5 : ℝ)| = 1.5 from abs_of_pos (by norm_num)]

/-- Witness for C5 at the concrete input named in the claim: sphere 3.0 D, 5 mm in;
OD and OS agree on one pair (magnitude, base). -/
theorem c5_witness :
    ∃ p : ℝ × HorizontalBase,
      (induced_prism Eye.OD (SpheroCyl.mk 3 0 0)
          (Decentration.mk 0 5)).horizontal = some p ∧
        (induced_prism Eye.OS (SpheroCyl.mk 3 0 0)
            (Decentration.mk 0 5)).horizontal = some p :=
  c5_eye_mirroring.1 (SpheroCyl.mk 3 0 0) (Decentration.mk 0 5)
    rfl rfl (by norm_num) (by norm_num)

/-- Claim C4 counterexample: the pure-sphere lens `(1, 0, 45°)` satisfies
`cylinder ≤ 0` and `axis ∈ [0, 180)`, yet the round trip through the power
matrix returns axis 0, not 45 — the axis is not reproduced within `1e-9`
when the cylinder is zero (per the edge-case note of the spec: the axis is
arbitrary there). -/
theorem c4_counterexample :
    (crossed_cylinders (SpheroCyl.mk 1 0 45) (SpheroCyl.mk 0 0 0)).axis_deg = 0 ∧
      ¬ |(crossed_cylinders (SpheroCyl.mk 1 0 45) (SpheroCyl.mk 0 0 0)).axis_deg -
          (SpheroCyl.mk 1 0 45).axis_deg| ≤ 1e-9 := by
  have h1 : crossed_cylinders (SpheroCyl.mk 1 0 45) (SpheroCyl.mk 0 0 0) =
      fromMatrix 1 0 1 := by
    rw [crossed_cylinders_def, toMatrix_zero_cyl, toMatrix_zero_cyl]
    norm_num
  have hD : fmDelta 1 0 1 = 0 := by
    unfold fmDelta
    norm_num
  have hS : fmSphere 1 0 1 = 1 := by
    unfold fmSphere
    rw [hD]
    norm_num
  have hAx : fmAxis 1 0 1 = 0 := by
    unfold fmAxis
    rw [hS]
    have hz : atan2 (1 - 1 : ℝ) 0 = 0 := by
      unfold atan2
      rw [show ((⟨0, 1 - 1⟩ : ℂ)) = 0 from by
        rw [Complex.ext_iff]
        constructor <;> norm_num, Complex.arg_zero]
    rw [hz, show toDegrees 0 = 0 from by unfold toDegrees; ring]
    exact norm180_of_Ico (le_refl 0) (by norm_num)
  have haxis : (crossed_cylinders (SpheroCyl.mk 1 0 45)
      (SpheroCyl.mk 0 0 0)).axis_deg = 0 := by
    rw [h1]
    exact hAx
  refine ⟨haxis, ?_⟩
  rw [haxis]
  show ¬ |(0 : ℝ) - 45| ≤ 1e-9
  rw [show ((0 : ℝ) - 45) = -45 from by norm_num, abs_neg,
    abs_of_nonneg (by norm_num : (0:ℝ) ≤ 45)]
  norm_num

/-- Claim C4 (amended): for every lens with `cylinder < 0` (strictly) and
`axis_deg ∈ [0, 180)`, decomposing the power matrix of the lens itself — realized as
`crossed_cylinders lens zero` — reproduces the lens exactly (hence within
`1e-9`); for `cylinder = 0` the sphere and cylinder are still reproduced but
the returned axis is the conventional 0. -/
theorem c4_roundtrip (lens : SpheroCyl) (hc : lens.cylinder < 0)
    (h0 : 0 ≤ lens.axis_deg) (h1 : lens.axis_deg < 180) :
    crossed_cylinders lens (SpheroCyl.mk 0 0 0) = lens := by
  obtain ⟨S, C, A⟩ := lens
  have hc' : C < 0 := hc
  have h0' : 0 ≤ A := h0
  have h1' : A < 180 := h1
  rw [crossed_cylinders_def, toMatrix_zero_cyl]
  set sa := Real.sin (toRadians A) with hsa
  set ca := Real.cos (toRadians A) with hca
  have hpx : (SpheroCyl.mk S C A).toMatrix.px + (PowerMatrix.mk 0 0 0).px =
      S + C * sa * sa := by
    show S + C * sa * sa + 0 = S + C * sa * sa
    ring
  have hpt : (SpheroCyl.mk S C A).toMatrix.pt + (PowerMatrix.mk 0 0 0).pt =
      -(C * sa * ca) := by
    show -C * sa * ca + 0 = -(C * sa * ca)
    ring
  have hpy : (SpheroCyl.mk S C A).toMatrix.py + (PowerMatrix.mk 0 0 0).py =
      S + C * ca * ca := by
    show S + C * ca * ca + 0 = S + C * ca * ca
    ring
  rw [hpx, hpt, hpy]
  have hpyth : sa ^ 2 + ca ^ 2 = 1 := Real.sin_sq_add_cos_sq _
  have hD : fmDelta (S + C * sa * sa) (-(C * sa * ca)) (S + C * ca * ca) = -C := by
    unfold fmDelta
    have hexp : (S + C * sa * sa + (S + C * ca * ca)) *
          (S + C * sa * sa + (S + C * ca * ca)) -
        4 * ((S + C * sa * sa) * (S + C * ca * ca) -
          -(C * sa * ca) * -(C * sa * ca)) = (C * (sa ^ 2 + ca ^ 2)) ^ 2 := by
      ring
    rw [hexp, hpyth, mul_one, max_eq_left (sq_nonneg C), Real.sqrt_sq_eq_abs]
    exact abs_of_neg hc'
  have hSph : fmSphere (S + C * sa * sa) (-(C * sa * ca)) (S + C * ca * ca) = S := by
    unfold fmSphere
    rw [hD]
    linear_combination (C / 2) * hpyth
  have hAx : fmAxis (S + C * sa * sa) (-(C * sa * ca)) (S + C * ca * ca) = A := by
    unfold fmAxis
    rw [hSph, show S - (S + C * sa * sa) = -C * sa * sa from by ring]
    by_cases hA0 : A = 0
    · subst hA0
      have hsa0 : sa = 0 := by
        rw [hsa]
        unfold toRadians
        rw [zero_mul, Real.sin_zero]
      rw [hsa0, show (-C * (0:ℝ) * 0 : ℝ) = 0 from by ring,
        show (-(C * (0:ℝ) * ca) : ℝ) = 0 from by ring]
      have hz : atan2 (0 : ℝ) 0 = 0 := by
        unfold atan2
        rw [show ((⟨0, 0⟩ : ℂ)) = 0 from by
          rw [Complex.ext_iff]
          constructor <;> norm_num, Complex.arg_zero]
      rw [hz, show toDegrees 0 = 0 from by unfold toDegrees; ring]
      exact norm180_of_Ico (le_refl 0) (by norm_num)
    · have hApos : 0 < A := lt_of_le_of_ne h0' (Ne.symm hA0)
      have hapos : 0 < toRadians A := by
        unfold toRadians
        exact mul_pos hApos (by positivity)
      have halt : toRadians A < π := by
        unfold toRadians
        calc A * (π / 180) < 180 * (π / 180) :=
              mul_lt_mul_of_pos_right h1' (by positivity)
          _ = π := by ring
      have hsapos : 0 < sa := by
        rw [hsa]
        exact Real.sin_pos_of_pos_of_lt_pi hapos halt
      have hrpos : 0 < -C * sa := mul_pos (neg_pos.mpr hc') hsapos
      have hzeq : (⟨-(C * sa * ca), -C * sa * sa⟩ : ℂ) =
          ((-C * sa : ℝ) : ℂ) *
            (Complex.cos (toRadians A) + Complex.sin (toRadians A) * Complex.I) := by
        rw [Complex.ext_iff]
        constructor
        · simp only [Complex.mul_re, Complex.add_re, Complex.add_im,
            Complex.mul_im, Complex.I_re, Complex.I_im, Complex.ofReal_re,
            Complex.ofReal_im, Complex.cos_ofReal_re, Complex.cos_ofReal_im,
            Complex.sin_ofReal_re, Complex.sin_ofReal_im]
          rw [← hsa, ← hca]
          ring
        · simp only [Complex.mul_re, Complex.add_re, Complex.add_im,
            Complex.mul_im, Complex.I_re, Complex.I_im, Complex.ofReal_re,
            Complex.ofReal_im, Complex.cos_ofReal_re, Complex.cos_ofReal_im,
            Complex.sin_ofReal_re, Complex.sin_ofReal_im]
          rw [← hsa, ← hca]
          ring
      have harg : atan2 (-C * sa * sa) (-(C * sa * ca)) = toRadians A := by
        unfold atan2
        rw [hzeq, Complex.arg_real_mul _ hrpos]
        exact Complex.arg_cos_add_sin_mul_I
          ⟨by linarith [Real.pi_pos], le_of_lt halt⟩
      rw [harg, toDegrees_toRadians]
      exact norm180_of_Ico h0' h1'
  show SpheroCyl.mk (fmSphere (S + C * sa * sa) (-(C * sa * ca)) (S + C * ca * ca))
      (-fmDelta (S + C * sa * sa) (-(C * sa * ca)) (S + C * ca * ca))
      (fmAxis (S + C * sa * sa) (-(C * sa * ca)) (S + C * ca * ca)) =
    SpheroCyl.mk S C A
  rw [hSph, hD, hAx, neg_neg]

/-- Witness for C4 (amended) at the concrete lens `(1, −2 DC, 30°)`. -/
theorem c4_roundtrip_witness :
    crossed_cylinders (SpheroCyl.mk 1 (-2) 30) (SpheroCyl.mk 0 0 0) =
      SpheroCyl.mk 1 (-2) 30 :=
  c4_roundtrip _ (by norm_num) (by norm_num) (by norm_num)

end

end Opticalc
